import Mathlib

/-!
Verification development for the `to-build` asset-pipeline build tool.

The definitions below are a shallow embedding of the JavaScript sources
`src/builder.cjs`, `src/entity-manager.cjs` and `src/source-finder.cjs`:
pure string manipulation is translated to Lean functions over `String`,
the mutable registries become explicit state records, filesystem writes
become explicit lists of (path, content) pairs, and the external
collaborators (Node's `URL` parser, `fs.existsSync`, the minifier services,
the hash functions and `@thimpat/libutils`) are parameters gathered in an
environment record.
-/

namespace ToBuild

/-! ### JavaScript string primitives

Models of the JS string methods used by the source: `trim`, `toLowerCase`,
`indexOf` / `lastIndexOf`, `replace` (first occurrence, string pattern),
`split` (string separator), and the source's own `replaceLast`.
-/

/-- Characters considered whitespace by `String.prototype.trim` (ASCII part). -/
def isWs (c : Char) : Bool := c = ' ' ∨ c = '\t' ∨ c = '\n' ∨ c = '\r'

def trimChars (l : List Char) : List Char :=
  ((l.dropWhile isWs).reverse.dropWhile isWs).reverse

/-- JS `s.trim()`. -/
def jsTrim (s : String) : String := String.mk (trimChars s.data)

/-- ASCII lower-casing of one character, as `String.prototype.toLowerCase` does. -/
def lowerCh (c : Char) : Char :=
  if 'A' ≤ c ∧ c ≤ 'Z' then Char.ofNat (c.toNat + 32) else c

/-- JS `s.toLowerCase()` (ASCII). -/
def jsToLower (s : String) : String := String.mk (s.data.map lowerCh)

/-- All indices at which `pat` occurs in `s` (including `s.length` for the empty
pattern), in increasing order. -/
def occIndices (s pat : List Char) : List Nat :=
  (List.range (s.length + 1)).filter (fun i => pat.isPrefixOf (s.drop i))

/-- Whether `pat` occurs somewhere in `s` (JS `s.indexOf(pat) > -1`). -/
def containsStr (s pat : String) : Bool := !(occIndices s.data pat.data).isEmpty

/-- JS `s.indexOf(pat)`, `none` for -1. -/
def jsIndexOf (s pat : String) : Option Nat := (occIndices s.data pat.data).head?

/-- JS `s.lastIndexOf(pat)`, `none` for -1. -/
def jsLastIndexOf (s pat : String) : Option Nat := (occIndices s.data pat.data).getLast?

/-- JS `s.replace(pat, rep)` with a string pattern: replaces the first
occurrence only; returns `s` unchanged when there is none. -/
def jsReplaceFirst (s pat rep : String) : String :=
  match jsIndexOf s pat with
  | none => s
  | some i => String.mk (s.data.take i ++ rep.data ++ s.data.drop (i + pat.data.length))

/-- `replaceLast` from builder.cjs:
`str.substring(0, index) + replace + str.substring(index + search.length)` with
`index = str.lastIndexOf(search)`. When the search string is absent,
`index = -1` and JS `substring` clamps, yielding
`replace + str.substring(search.length - 1)` — modelled faithfully. -/
def replaceLast (s search rep : String) : String :=
  match jsLastIndexOf s search with
  | some i => String.mk (s.data.take i ++ rep.data ++ s.data.drop (i + search.data.length))
  | none => String.mk (rep.data ++ s.data.drop (search.data.length - 1))

/-- Worker for `jsSplit`: the fuel is an upper bound on the input length, so the
recursion is structural; each step consumes at least one character. -/
def splitGo (sep : List Char) : Nat → List Char → List Char → List (List Char)
  | _, [], acc => [acc.reverse]
  | 0, l, acc => [acc.reverse ++ l]
  | fuel + 1, c :: rest, acc =>
    if sep.isPrefixOf (c :: rest) then
      acc.reverse :: splitGo sep fuel (rest.drop (sep.length - 1)) []
    else
      splitGo sep fuel rest (c :: acc)

/-- JS `s.split(sep)` with a string separator; an empty separator splits into
single characters as in JS. -/
def jsSplit (s sep : String) : List String :=
  if sep.data = [] then s.data.map (fun c => String.mk [c])
  else (splitGo sep.data s.data.length s.data []).map String.mk

/-! ### Decimal rendering of numbers

JS template interpolation of a (non-negative integral) number produces its
decimal digits; `natRepr` reimplements that rendering so that its injectivity
can be proved. The fuel argument makes the recursion structural. -/

def digitCh (n : Nat) : Char := Char.ofNat (48 + n)

def natReprGo : Nat → Nat → List Char
  | 0, n => [digitCh n]
  | fuel + 1, n => if n < 10 then [digitCh n] else natReprGo fuel (n / 10) ++ [digitCh (n % 10)]

/-- Decimal rendering of a natural number (the JS `${counter}` interpolation). -/
def natRepr (n : Nat) : String := String.mk (natReprGo n n)

/-! ### Path helpers

POSIX variants of the `path.parse` components used by the source, and a model
of `joinPath` from `@thimpat/libutils` (an external dependency, modelled as
plain separator-normalising concatenation). -/

def startsWithSlash (s : String) : Bool :=
  match s.data with
  | '/' :: _ => true
  | _ => false

def endsWithSlash (s : String) : Bool :=
  match s.data.getLast? with
  | some '/' => true
  | _ => false

/-- Modelled external dependency: `joinPath` from `@thimpat/libutils`
(concatenation with a single separator between the parts). -/
def joinPath (a b : String) : String :=
  if a = "" then b
  else
    let a' := if endsWithSlash a then String.mk a.data.dropLast else a
    let b' := if startsWithSlash b then String.mk (b.data.drop 1) else b
    a' ++ "/" ++ b'

/-- `path.parse(p).base`: the part after the last separator. -/
def parseBase (p : String) : String := ((jsSplit p "/").getLast?).getD ""

/-- `path.parse(p).dir`: everything before the last separator. -/
def posixDir (p : String) : String :=
  match (jsSplit p "/").dropLast with
  | [] => ""
  | [""] => "/"
  | l => String.intercalate "/" l

/-- Index of the last `'.'` in a base name, if any. -/
def lastDotIdx (base : String) : Option Nat :=
  ((List.range base.data.length).filter (fun i => base.data.get? i = some '.')).getLast?

/-- `path.parse(p).ext` of a base name: from the last dot on, none when the
only dot is leading (hidden files have no extension). -/
def parseExt (base : String) : String :=
  match lastDotIdx base with
  | none => ""
  | some 0 => ""
  | some i => String.mk (base.data.drop i)

/-- `path.parse(p).name` of a base name: the base without its extension. -/
def parseName (base : String) : String :=
  match lastDotIdx base with
  | none => base
  | some 0 => base
  | some i => String.mk (base.data.take i)

/-- `makePathRelative` from builder.cjs: absolute paths get a `.` prepended,
other paths a `./` unless already present. -/
def makePathRelative (uri : String) : String :=
  if startsWithSlash uri then "." ++ uri
  else if ("./".data).isPrefixOf uri.data then uri
  else "./" ++ uri

/-- `os.EOL` on the POSIX systems the tool targets. -/
def EOL : String := "\n"

/-! ### Association lists

JS plain objects used as dictionaries (`entities`, `lookup`, `prod`) become
insertion-ordered association lists with last-write-wins updates. -/

def lookupAssoc {α : Type} : List (String × α) → String → Option α
  | [], _ => none
  | (k', v) :: rest, k => if k' = k then some v else lookupAssoc rest k

def setAssoc {α : Type} : List (String × α) → String → α → List (String × α)
  | [], k, v => [(k, v)]
  | (k', v') :: rest, k, v =>
    if k' = k then (k', v) :: rest else (k', v') :: setAssoc rest k v

/-! ### The Entity data model (entity-manager.cjs)

An `Entity` carries the fields the source attaches to the objects it keeps in
the registry; fields the source may leave `undefined` are `Option`s or default
to the empty string. -/

structure Entity where
  tag : String := ""
  uri : String := ""
  originalUri : String := ""
  category : String := ""
  pathname : Option String := none
  name : String := ""
  base : String := ""
  ext : String := ""
  dir : String := ""
  fullname : String := ""
  sourcePath : Option String := none
  sourceDir : String := ""
  rootFolder : Option String := none
  tagID : String := ""
  replacement : String := ""
  code : Option String := none
  originalContent : String := ""
  sourcemapContent : Option String := none
  sourcemapName : String := ""
  sourcemapPath : String := ""
  targetPath : String := ""
  targetDir : String := ""
  targetName : String := ""
  targetPathUncompressed : String := ""
  originalPath : String := ""
  deriving DecidableEq

/-- The mutable registries of entity-manager.cjs: `entities` (category to
insertion-ordered entity list) and `lookup` (uri to entity, last write wins). -/
structure RegState where
  entities : List (String × List Entity) := []
  lookup : List (String × Entity) := []
  deriving DecidableEq

/-- `getEntities` from entity-manager.cjs: `entities[category] || []`. -/
def getEntities (reg : List (String × List Entity)) (category : String) : List Entity :=
  (lookupAssoc reg category).getD []

/-- Log lines the modelled functions emit (identified by their meaning). -/
inductive LogEvent where
  | staticSkip (uri : String)
  | missingAsset (uri : String)
  deriving DecidableEq

/-! ### The environment

External collaborators of the modelled code: Node's WHATWG `URL` parser (the
`pathname` it yields, `none` for a parse failure), `fs` existence checks and
file reads, `resolvePath` from `@thimpat/libutils`, the hash functions of
utils.cjs (sha1 hex digests; modelled as opaque functions of the content), the
root/static directory lists of source-finder.cjs, and `MASKS.DELIMITER`.
`MASKS.DELIMITER` is from constants.cjs, which is not part of the sources at
hand; modelled from the spec: a fixed placeholder delimiter chosen to not occur
in ordinary markup. -/

structure Env where
  isUrl : String → Bool
  urlPathname : String → Option String
  fsExists : String → Bool
  resolvePath : String → String
  readFile : String → String
  hashFile : String → String
  hashText : String → String
  roots : List String
  staticDirs : List String
  delim : String

/-- `getPathName(uri)` from source-finder.cjs with the default
`withTrailingSlash = true`. -/
def getPathName (env : Env) (uri : String) : Option String := env.urlPathname uri

/-- `getPathName(uri, {withTrailingSlash: false})`. -/
def getPathNameNS (env : Env) (uri : String) : Option String :=
  (env.urlPathname uri).map (fun p => if startsWithSlash p then String.mk (p.data.drop 1) else p)

/-- Result of `lookupRootPath`: the branch that finds the uri itself on disk
returns a bare (resolved) string, the root-folder scan returns a
`{rootFolder, sourcePath}` record. -/
inductive LookupResult where
  | literalPath (p : String)
  | found (rootFolder sourcePath : String)
  deriving DecidableEq

/-- The root-folder scan loop of `lookupRootPath`: first root whose join with
the uri exists on disk wins. -/
def lookupRoots (env : Env) (uri : String) : List String → Option LookupResult
  | [] => none
  | r :: rs =>
    if env.fsExists (joinPath r uri) then some (.found r (joinPath r uri))
    else lookupRoots env uri rs

/-- `lookupRootPath` from source-finder.cjs. -/
def lookupRootPath (env : Env) (uri : String) : Option LookupResult :=
  if uri = "" then none
  else if env.fsExists uri then some (.literalPath (env.resolvePath uri))
  else lookupRoots env uri env.roots

/-- `lookupStaticPath` from source-finder.cjs: the same scan over the static
directories. -/
def lookupStaticPath (env : Env) (uri : String) : Option LookupResult :=
  if uri = "" then none
  else lookupRoots env uri env.staticDirs

/-! ### addEntity (entity-manager.cjs) -/

/-- The tag id `category(counter)`. -/
def mkTagID (category : String) (n : Nat) : String :=
  category ++ "(" ++ natRepr n ++ ")"

/-- The placeholder `DELIMITER + tagID + DELIMITER`. -/
def mkReplacement (delim category : String) (n : Nat) : String :=
  delim ++ mkTagID category n ++ delim

/-- The `pathname` field set by addEntity: assigned only when
`getPathName(uri)` is truthy. -/
def pathnameField (env : Env) (uri : String) : Option String :=
  match getPathName env uri with
  | some p => if p = "" then none else some p
  | none => none

/-- `entity.pathname || entity.uri`, the argument passed to `lookupRootPath`. -/
def effectivePathname (env : Env) (uri : String) : String :=
  (pathnameField env uri).getD uri

/-- The entity as set up by addEntity before resolution (entity-manager.cjs
112-137): path components are derived only when the pathname is truthy. -/
def initialEntity (env : Env) (tag uri : String) : Entity :=
  match pathnameField env uri with
  | some p =>
    { tag := tag, uri := uri, pathname := some p,
      name := parseName (parseBase p), base := parseBase p,
      ext := parseExt (parseBase p), dir := posixDir p,
      fullname := parseBase p }
  | none => { tag := tag, uri := uri }

/-- Lines 180-201 of entity-manager.cjs: fill the resolution fields, push into
the registry (the ordinal is the list length before the push), record the
entity under its uri, and derive tagID and replacement. -/
def registerEntity (env : Env) (category rootFolder sourcePath : String) (e0 : Entity)
    (st : RegState) : Option String × RegState × List LogEvent :=
  let old := getEntities st.entities category
  let counter := old.length
  let e := { e0 with category := category, sourcePath := some sourcePath,
                     sourceDir := posixDir sourcePath, rootFolder := some rootFolder,
                     tagID := mkTagID category counter,
                     replacement := mkReplacement env.delim category counter,
                     originalUri := e0.uri }
  (some (mkReplacement env.delim category counter),
   { entities := setAssoc st.entities category (old ++ [e]),
     lookup := setAssoc st.lookup e.uri e },
   [])

/-- `addEntity` from entity-manager.cjs (lines 98-209). In the branch where
`lookupRootPath` found the uri itself on disk it returns a bare string;
`const {rootFolder, sourcePath} = resLookups` then yields undefined for both
fields and `path.parse(sourcePath)` throws, which the surrounding try/catch
turns into a `null` result before the registry is touched. -/
def addEntity (env : Env) (category tag uri referenceDir : String) (st : RegState) :
    Option String × RegState × List LogEvent :=
  if uri = "" then (none, st, [])
  else if env.isUrl uri then (none, st, [])
  else if getPathName env uri = some "/" then (none, st, [])
  else if referenceDir ≠ "" then
    if env.fsExists (joinPath referenceDir (((initialEntity env tag uri).pathname).getD "")) = false then
      if (lookupStaticPath env (((initialEntity env tag uri).pathname).getD "")).isSome then
        (none, st, [.staticSkip (((initialEntity env tag uri).pathname).getD "")])
      else
        (none, st, [.missingAsset (((initialEntity env tag uri).pathname).getD "")])
    else
      registerEntity env category referenceDir
        (joinPath referenceDir (((initialEntity env tag uri).pathname).getD ""))
        (initialEntity env tag uri) st
  else
    match lookupRootPath env (effectivePathname env uri) with
    | none =>
      if containsStr uri "#" then (none, st, [])
      else if (lookupStaticPath env uri).isSome then (none, st, [.staticSkip uri])
      else (none, st, [.missingAsset uri])
    | some (.literalPath _) => (none, st, [])
    | some (.found rootFolder sourcePath) =>
      registerEntity env category rootFolder sourcePath (initialEntity env tag uri) st

/-- One iteration of the extractEntities match loop (builder.cjs 125-158): the
matched tag is lower-cased before registration, and on success the lower-cased
tag's first occurrence in the content is replaced by the placeholder; on a
null result the content is left untouched and the loop continues. -/
def processMatch (env : Env) (category content rawTag uri referenceDir : String)
    (st : RegState) : String × RegState :=
  let tag := jsToLower rawTag
  match addEntity env category tag uri referenceDir st with
  | (none, st', _) => (content, st')
  | (some replacement, st', _) => (jsReplaceFirst content tag replacement, st')

/-- `addProdCode` from entity-manager.cjs: `prod[entity.tagID] = entity`. -/
def addProdCode (prodIdx : List (String × Entity)) (entity : Entity) :
    List (String × Entity) :=
  setAssoc prodIdx entity.tagID entity

/-- `getCodeTagID` from entity-manager.cjs. -/
def getCodeTagID (prodIdx : List (String × Entity)) (tagID : String) : Option Entity :=
  lookupAssoc prodIdx tagID

/-! ### Rewriting and the transform step (builder.cjs) -/

/-- `updateHtml` (builder.cjs 243-258): relativise the uri, rebuild the tag
with the last occurrence of the original uri swapped for the new one, and
replace the placeholder's first occurrence in the html with the rebuilt tag. -/
def updateHtml (htmlContent : String) (entity : Entity) : String × Entity :=
  let e := { entity with uri := makePathRelative entity.uri }
  let newTag := replaceLast e.tag e.originalUri e.uri
  (jsReplaceFirst htmlContent e.replacement newTag, e)

/-- `applyChangesFromEntity` (builder.cjs 340-388). The `deployImmediately`
guard at the top of the source function is commented out, so the parameter is
accepted and ignored. Disk writes are returned as (path, content) pairs;
`fs.copyFileSync` is modelled as writing the source file's content as read by
`env.readFile`. -/
def applyChangesFromEntity (env : Env) (htmlContent : String) (entity : Entity)
    (alreadyGenerated deployImmediately : Bool) :
    String × Entity × List (String × String) :=
  let writes :=
    if alreadyGenerated then []
    else
      match entity.code with
      | some code =>
        (match entity.sourcemapContent with
         | some sm =>
           [(entity.sourcemapPath, sm),
            (entity.targetPathUncompressed, entity.originalContent)]
         | none => []) ++ [(entity.targetPath, code)]
      | none => [(entity.targetPath, env.readFile ((entity.sourcePath).getD ""))]
  let r := updateHtml htmlContent entity
  (r.1, r.2, writes)

structure InfoPath where
  dir : String
  name : String
  originalPath : String
  path : String

/-- `decorticatePath` (builder.cjs 213-234). -/
def decorticatePath (env : Env) (targetPath : String) : InfoPath :=
  let base := parseBase targetPath
  let filename := (getPathNameNS env base).getD ""
  { dir := posixDir targetPath
    name := parseName base
    originalPath := targetPath
    path := if filename = base then targetPath else joinPath (posixDir targetPath) filename }

/-- `reviewTargetEntity` (builder.cjs 269-329). In production the target name
is the source file's content hash and the `.min` renaming is disabled; in
staging with minify on, the name is rewritten to `<name>.min` via
`replaceLast` on the target path and the uri. -/
def reviewTargetEntity (env : Env) (entity : Entity) (destFolder : String)
    (production minify sourcemaps : Bool) : Entity :=
  let prodStep :=
    if production then
      let newName := env.hashFile ((entity.sourcePath).getD "")
      let infoName := parseName (parseBase ((entity.sourcePath).getD ""))
      let uri' := jsReplaceFirst entity.fullname infoName newName
      ({ entity with targetName := newName, uri := uri', pathname := some uri',
                     targetPath := joinPath destFolder uri' }, false)
    else
      ({ entity with targetPath := joinPath destFolder ((entity.pathname).getD "") }, minify)
  let e1 := prodStep.1
  let minify1 := prodStep.2
  let info := decorticatePath env e1.targetPath
  let e2 := { e1 with targetDir := info.dir, originalPath := info.originalPath }
  let e3 :=
    if minify1 then
      { e2 with targetName := e2.name ++ ".min",
                targetPathUncompressed := e2.targetPath,
                targetPath := replaceLast e2.targetPath e2.name (e2.name ++ ".min"),
                uri := replaceLast e2.uri e2.name (e2.name ++ ".min") }
    else
      { e2 with targetName := if e2.targetName ≠ "" then e2.targetName else info.name }
  if sourcemaps then
    { e3 with sourcemapName := e3.name ++ e3.ext ++ ".map",
              sourcemapPath := joinPath e3.targetDir (e3.name ++ e3.ext ++ ".map") }
  else e3

structure MinifyResult where
  html : String
  entity : Entity
  writes : List (String × String)
  prodIdx : List (String × Entity)
  deriving DecidableEq

/-- `minifyCss` (builder.cjs 437-500) with the CleanCSS collaborator's output
passed in as `styles`/`sourceMap` (an empty minified output is falsy in the
source and arrives here as `none`). The nested `url()` extraction pass only
touches the registry and is not needed here, so it is omitted. In production
the entity is recorded in the prod tag-id index; either way
`applyChangesFromEntity` is then invoked with `deployImmediately: !production`. -/
def minifyCssModel (env : Env) (styles sourceMap : Option String)
    (htmlContent destFolder : String) (sourcemaps : Bool) (entity : Entity)
    (production : Bool) (prodIdx : List (String × Entity)) : MinifyResult :=
  let e1 := reviewTargetEntity env entity destFolder production true sourcemaps
  let e2 := { e1 with originalContent := env.readFile ((e1.sourcePath).getD "") }
  let e3 := match styles with
            | some s => { e2 with code := some s }
            | none => e2
  if production then
    let prodIdx' := addProdCode prodIdx e3
    let r := applyChangesFromEntity env htmlContent e3 false false
    { html := r.1, entity := r.2.1, writes := r.2.2, prodIdx := prodIdx' }
  else
    let e4 := match sourceMap with
              | some sm =>
                { e3 with sourcemapContent := some sm,
                          code := some (((e3.code).getD "") ++ EOL ++ "/*# sourceMappingURL=" ++ e3.sourcemapName ++ " */") }
              | none => e3
    let r := applyChangesFromEntity env htmlContent e4 false true
    { html := r.1, entity := r.2.1, writes := r.2.2, prodIdx := prodIdx }

/-! ### The production coalescing pass (builder.cjs) -/

structure FlushResult where
  tag : Option String
  writes : List (String × String)
  deriving DecidableEq

/-- `generateTag` (builder.cjs 1093-1138): concatenate the run's transformed
contents (each prefixed by a comment naming its pathname; an entity with falsy
code contributes only the comment), hash the bundle, write `<hash><ext>`, and
return the referencing tag. On an empty run the source throws reading
`entitiesSpecificsList[0].category` and the catch returns null before any
write happens. -/
def generateTag (env : Env) (outputFolder : String) : List Entity → FlushResult
  | [] => { tag := none, writes := [] }
  | e0 :: rest =>
    let bigCode := (e0 :: rest).foldl (fun acc e =>
      let acc := acc ++ "/** " ++ ((e.pathname).getD "") ++ " */" ++ EOL
      match e.code with
      | none => acc
      | some c => acc ++ c ++ EOL ++ EOL ++ EOL) ""
    let filename := env.hashText bigCode ++ e0.ext
    let filepath := joinPath outputFolder filename
    let tagStr :=
      if e0.category = "css" then
        "<link rel=\"stylesheet\" href=\"./" ++ filename ++ "\"/>"
      else if e0.category = "script" then
        "<script src=\"./" ++ filename ++ "\"></script>"
      else
        "<link href=\"./" ++ filename ++ "\"/> <!-- Unknown category -->"
    { tag := some tagStr, writes := [(filepath, bigCode)] }

/-- JS `+=` appends the literal text "null" when `generateTag` returned null. -/
def optStr : Option String → String
  | some s => s
  | none => "null"

/-- Loop state of `buildProductionTargets`; `writes` records the files written
by the `generateTag` calls and `flushed` the run each bundle was built from. -/
structure BptState where
  newHtml : String := ""
  run : List Entity := []
  currentCategory : Option String := none
  writes : List (String × String) := []
  flushed : List (List Entity) := []
  deriving DecidableEq

/-- The segment loop of `buildProductionTargets` (builder.cjs 1149-1193),
mirrored exactly: segments that are empty after trimming are skipped,
non-placeholder segments flush a pending run and are appended trimmed, a
placeholder starts or extends the run, a category change flushes;
`currentCategory` is not reset by the non-placeholder flush, so a later
category change can invoke `generateTag` on an empty run, whose null result is
appended as the text "null"; and no flush happens after the last segment. -/
def bptLoop (env : Env) (outputFolder : String) (prodIdx : List (String × Entity)) :
    List String → BptState → BptState
  | [], st => st
  | part :: rest, st =>
    let p := jsTrim part
    if p = "" then bptLoop env outputFolder prodIdx rest st
    else
      match getCodeTagID prodIdx p with
      | none =>
        let st1 :=
          if st.run = [] then st
          else
            let fr := generateTag env outputFolder st.run
            { st with newHtml := st.newHtml ++ optStr fr.tag,
                      writes := st.writes ++ fr.writes,
                      flushed := st.flushed ++ [st.run],
                      run := [] }
        bptLoop env outputFolder prodIdx rest { st1 with newHtml := st1.newHtml ++ p }
      | some entity =>
        match st.currentCategory with
        | none =>
          bptLoop env outputFolder prodIdx rest
            { st with run := [entity], currentCategory := some entity.category }
        | some c =>
          if entity.category ≠ c then
            let fr := generateTag env outputFolder st.run
            bptLoop env outputFolder prodIdx rest
              { st with newHtml := st.newHtml ++ optStr fr.tag,
                        writes := st.writes ++ fr.writes,
                        flushed := st.flushed ++ (if st.run = [] then [] else [st.run]),
                        run := [entity], currentCategory := some entity.category }
          else
            bptLoop env outputFolder prodIdx rest { st with run := st.run ++ [entity] }

/-- `buildProductionTargets` (builder.cjs 1140-1203): split the html on the
placeholder delimiter and run the segment loop over the parts. The final loop
state is returned; note the source performs no flush after the loop. -/
def buildProductionTargets (env : Env) (outputFolder : String)
    (prodIdx : List (String × Entity)) (htmlContent : String) : BptState :=
  bptLoop env outputFolder prodIdx (jsSplit htmlContent env.delim) {}

/-! ### Directive stripping (builder.cjs reviewHTML) -/

/-- The opening directive marker, in canonical single-space spelling (the
source's regex also tolerates extra whitespace around the tokens). -/
def startMarker (buildType : String) : String :=
  "<!-- to-build remove " ++ buildType ++ " -->"

/-- The closing directive marker, canonical spelling. -/
def endMarker (buildType : String) : String :=
  "<!-- /to-build remove " ++ buildType ++ " -->"

/-- `reviewHTML` (builder.cjs 1205-1226): the source replaces the regex
`start.*end` (flags gis) with the empty string. With a greedy dotall `.*`
that removes everything from the first opening marker to the last closing
marker occurring after it, when both exist; otherwise the html is unchanged. -/
def reviewHTML (htmlContent buildType : String) : String :=
  match jsSplit htmlContent (startMarker buildType) with
  | [] => htmlContent
  | [_] => htmlContent
  | pre :: tailParts =>
    let tailStr := String.intercalate (startMarker buildType) tailParts
    match jsSplit tailStr (endMarker buildType) with
    | [] => htmlContent
    | [_] => htmlContent
    | parts => pre ++ (parts.getLast?).getD ""

/-! ### Concrete fixtures

A small concrete environment and a handful of concrete entities used by the
closed evaluations: canonical WHATWG pathnames (fragment stripped, a leading
slash ensured), a three-file filesystem, identity `resolvePath`, constant file
content and a fixed hash value. -/

def env0 : Env :=
  { isUrl := fun s => containsStr s "://"
    urlPathname := fun u =>
      let core := ((jsSplit u "#").head?).getD ""
      some (if core = "" then "/" else if startsWithSlash core then core else "/" ++ core)
    fsExists := fun p => p = "A/a.css" ∨ p = "A/b.js" ∨ p = "S/pub.css"
    resolvePath := id
    readFile := fun _ => "body-css"
    hashFile := fun _ => "HASH"
    hashText := fun _ => "HASH"
    roots := ["A"]
    staticDirs := ["S"]
    delim := "@@" }

/-- Environment in which the uri's own pathname exists on disk, driving
`lookupRootPath` into its bare-string branch. -/
def envL : Env := { env0 with fsExists := fun p => p = "/a.css" }

/-- Environment with two root folders that both contain `x.css`. -/
def envAB : Env :=
  { env0 with roots := ["A", "B"], fsExists := fun p => p = "A/x.css" ∨ p = "B/x.css" }

/-- A minified CSS entity as it sits in the production tag-id index. -/
def cssE0 : Entity :=
  { category := "css", ext := ".css", pathname := some "/a.css", code := some "A1",
    tagID := "css(0)" }

/-- A minified script entity as it sits in the production tag-id index. -/
def scrE0 : Entity :=
  { category := "script", ext := ".js", pathname := some "/b.js", code := some "B1",
    tagID := "script(0)" }

/-- A second minified CSS entity. -/
def cssE1 : Entity :=
  { category := "css", ext := ".css", pathname := some "/c.css", code := some "C1",
    tagID := "css(1)" }

/-- A production tag-id index with placeholders alternating CSS, SCRIPT, CSS. -/
def idx3 : List (String × Entity) := [("css(0)", cssE0), ("script(0)", scrE0), ("css(1)", cssE1)]

/-- The entity for `./a.css` as registered by `addEntity` under `env0`. -/
def regEntityA : Entity :=
  { tag := "<link href=\"a.css\" rel=\"stylesheet\">", uri := "a.css",
    originalUri := "a.css", category := "css", pathname := some "/a.css",
    name := "a", base := "a.css", ext := ".css", dir := "/", fullname := "a.css",
    sourcePath := some "A/a.css", sourceDir := "A", rootFolder := some "A",
    tagID := "css(0)", replacement := "@@css(0)@@" }

/-- The registry state after registering `regEntityA` into an empty registry. -/
def regAfterA : RegState :=
  { entities := [("css", [regEntityA])], lookup := [("a.css", regEntityA)] }

/-- An upper-case spelling of the `a.css` stylesheet tag. -/
def rawTagU : String := "<LINK HREF=\"a.css\" REL=\"STYLESHEET\">"

/-- A document containing only the upper-case tag. -/
def contentU : String := "<P><LINK HREF=\"a.css\" REL=\"STYLESHEET\"></P>"

/-- The entity for `./b.js` as registered by `addEntity` under `env0`. -/
def regEntityB : Entity :=
  { tag := "<script src=\"b.js\"></script>", uri := "b.js", originalUri := "b.js",
    category := "script", pathname := some "/b.js", name := "b", base := "b.js",
    ext := ".js", dir := "/", fullname := "b.js", sourcePath := some "A/b.js",
    sourceDir := "A", rootFolder := some "A", tagID := "script(0)",
    replacement := "@@script(0)@@" }

/-- A stylesheet entity whose one-letter name also occurs inside its extension. -/
def sCssEntity : Entity :=
  { uri := "s.css", originalUri := "s.css", category := "css", pathname := some "/s.css",
    name := "s", base := "s.css", ext := ".css", dir := "/", fullname := "s.css",
    sourcePath := some "A/s.css" }

end ToBuild

namespace ToBuild

/-! ### Facts about the string primitives and decimal rendering -/

theorem jsReplaceFirst_of_not_contains (s pat rep : String)
    (h : containsStr s pat = false) : jsReplaceFirst s pat rep = s := by
  unfold containsStr at h
  unfold jsReplaceFirst jsIndexOf
  cases hocc : occIndices s.data pat.data with
  | nil => simp
  | cons a t => rw [hocc] at h; simp at h

theorem natReprGo_of_lt_ten (f n : Nat) (h : n < 10) : natReprGo f n = [digitCh n] := by
  cases f with
  | zero => rfl
  | succ f => simp [natReprGo, h]

theorem natReprGo_irrel (f : Nat) : ∀ g n : Nat, n ≤ f → n ≤ g → natReprGo f n = natReprGo g n := by
  induction f with
  | zero =>
    intro g n hf _
    interval_cases n
    simp [natReprGo_of_lt_ten]
  | succ f ih =>
    intro g n hf hg
    by_cases h10 : n < 10
    · rw [natReprGo_of_lt_ten _ _ h10, natReprGo_of_lt_ten _ _ h10]
    · push_neg at h10
      have hg1 : 1 ≤ g := le_trans (by omega) hg
      obtain ⟨g', rfl⟩ : ∃ g', g = g' + 1 := ⟨g - 1, by omega⟩
      have hdiv : n / 10 < n := Nat.div_lt_self (by omega) (by omega)
      simp only [natReprGo, if_neg (by omega : ¬ n < 10)]
      rw [ih g' (n / 10) (by omega) (by omega)]

theorem natReprGo_ne_nil (f n : Nat) : natReprGo f n ≠ [] := by
  cases f with
  | zero => simp [natReprGo]
  | succ f =>
    by_cases h : n < 10 <;> simp [natReprGo, h]

theorem digitCh_inj : ∀ m < 10, ∀ n < 10, digitCh m = digitCh n → m = n := by decide

theorem natRepr_inj (m : Nat) : ∀ n : Nat, natRepr m = natRepr n → m = n := by
  induction m using Nat.strong_induction_on with
  | _ m ih =>
    intro n h
    unfold natRepr at h
    have h' : natReprGo m m = natReprGo n n := by
      have := congrArg String.data h
      simpa using this
    by_cases hm : m < 10
    · by_cases hn : n < 10
      · rw [natReprGo_of_lt_ten _ _ hm, natReprGo_of_lt_ten _ _ hn] at h'
        exact digitCh_inj m hm n hn (List.head_eq_of_cons_eq h')
      · exfalso
        push_neg at hn
        obtain ⟨n', rfl⟩ : ∃ n', n = n' + 1 := ⟨n - 1, by omega⟩
        rw [natReprGo_of_lt_ten _ _ hm] at h'
        simp only [natReprGo, if_neg (by omega : ¬ n' + 1 < 10)] at h'
        have : ([] : List Char) ++ [digitCh m] = natReprGo n' ((n' + 1) / 10) ++ [digitCh ((n' + 1) % 10)] := by
          simpa using h'
        have hlen := List.append_inj_left' this (by simp)
        exact natReprGo_ne_nil n' ((n' + 1) / 10) hlen.symm
    · by_cases hn : n < 10
      · exfalso
        push_neg at hm
        obtain ⟨m', rfl⟩ : ∃ m', m = m' + 1 := ⟨m - 1, by omega⟩
        rw [natReprGo_of_lt_ten _ _ hn] at h'
        simp only [natReprGo, if_neg (by omega : ¬ m' + 1 < 10)] at h'
        have : natReprGo m' ((m' + 1) / 10) ++ [digitCh ((m' + 1) % 10)] = ([] : List Char) ++ [digitCh n] := by
          simpa using h'
        have hlen := List.append_inj_left' this (by simp)
        exact natReprGo_ne_nil m' ((m' + 1) / 10) hlen
      · push_neg at hm
        push_neg at hn
        obtain ⟨m', rfl⟩ : ∃ m', m = m' + 1 := ⟨m - 1, by omega⟩
        obtain ⟨n', rfl⟩ : ∃ n', n = n' + 1 := ⟨n - 1, by omega⟩
        simp only [natReprGo, if_neg (by omega : ¬ m' + 1 < 10),
          if_neg (by omega : ¬ n' + 1 < 10)] at h'
        have hpre := List.append_inj_left' h' (by simp)
        have hlast := List.append_inj_right' h' (by simp)
        have hdig : (m' + 1) % 10 = (n' + 1) % 10 := by
          have := List.head_eq_of_cons_eq hlast
          exact digitCh_inj _ (Nat.mod_lt _ (by omega)) _ (Nat.mod_lt _ (by omega)) this
        have hdivlt : (m' + 1) / 10 < m' + 1 := Nat.div_lt_self (by omega) (by omega)
        have hdiv : (m' + 1) / 10 = (n' + 1) / 10 := by
          apply ih _ hdivlt
          unfold natRepr
          have e1 : natReprGo ((m' + 1) / 10) ((m' + 1) / 10) = natReprGo m' ((m' + 1) / 10) :=
            natReprGo_irrel _ _ _ (le_refl _) (by omega)
          have e2 : natReprGo ((n' + 1) / 10) ((n' + 1) / 10) = natReprGo n' ((n' + 1) / 10) :=
            natReprGo_irrel _ _ _ (le_refl _) (by omega)
          rw [e1, e2, hpre]
        omega

end ToBuild

namespace ToBuild

/-! ### Helper lemmas -/

theorem string_data_inj {a b : String} (h : a.data = b.data) : a = b := by
  cases a; cases b; simp_all

theorem lookupAssoc_setAssoc_self {α : Type} (l : List (String × α)) (k : String) (v : α) :
    lookupAssoc (setAssoc l k v) k = some v := by
  induction l with
  | nil => simp [setAssoc, lookupAssoc]
  | cons p rest ih =>
    obtain ⟨k', v'⟩ := p
    by_cases hk : k' = k
    · simp [setAssoc, lookupAssoc, hk]
    · simp [setAssoc, lookupAssoc, hk, ih]

theorem mkTagID_inj (c : String) (i j : Nat) (h : mkTagID c i = mkTagID c j) : i = j := by
  apply natRepr_inj
  apply string_data_inj
  have hd := congrArg String.data h
  simp only [mkTagID, String.data_append, List.append_assoc] at hd
  have h1 := List.append_cancel_left hd
  have h2 := List.append_cancel_left h1
  exact List.append_cancel_right h2

theorem mkReplacement_inj (d c : String) (i j : Nat)
    (h : mkReplacement d c i = mkReplacement d c j) : i = j := by
  apply mkTagID_inj c
  apply string_data_inj
  have hd := congrArg String.data h
  simp only [mkReplacement, String.data_append, List.append_assoc] at hd
  have h1 := List.append_cancel_left hd
  exact List.append_cancel_right h1

theorem initialEntity_tag (env : Env) (tag uri : String) :
    (initialEntity env tag uri).tag = tag := by
  unfold initialEntity
  split <;> rfl

theorem registerEntity_spec (env : Env) (category rootFolder sourcePath : String)
    (e0 : Entity) (st : RegState) (r : String) (st' : RegState) (log : List LogEvent)
    (h : registerEntity env category rootFolder sourcePath e0 st = (some r, st', log)) :
    r = mkReplacement env.delim category (getEntities st.entities category).length ∧
    ∃ e : Entity,
      getEntities st'.entities category = getEntities st.entities category ++ [e] ∧
      e.tag = e0.tag ∧ e.category = category ∧
      e.tagID = mkTagID category (getEntities st.entities category).length ∧
      e.replacement = mkReplacement env.delim category (getEntities st.entities category).length := by
  simp only [registerEntity, Prod.mk.injEq, Option.some.injEq] at h
  obtain ⟨ha, hb, _⟩ := h
  refine ⟨ha.symm,
    { e0 with category := category, sourcePath := some sourcePath,
              sourceDir := posixDir sourcePath, rootFolder := some rootFolder,
              tagID := mkTagID category (getEntities st.entities category).length,
              replacement := mkReplacement env.delim category (getEntities st.entities category).length,
              originalUri := e0.uri },
    ?_, rfl, rfl, rfl, rfl⟩
  rw [← hb]
  show getEntities (setAssoc st.entities category _) category = _
  unfold getEntities
  rw [lookupAssoc_setAssoc_self]
  rfl

theorem addEntity_some_structure (env : Env) (category tag uri referenceDir : String)
    (st : RegState) (r : String) (st' : RegState) (log : List LogEvent)
    (h : addEntity env category tag uri referenceDir st = (some r, st', log)) :
    r = mkReplacement env.delim category (getEntities st.entities category).length ∧
    ∃ e : Entity,
      getEntities st'.entities category = getEntities st.entities category ++ [e] ∧
      e.tag = tag ∧ e.category = category ∧
      e.tagID = mkTagID category (getEntities st.entities category).length ∧
      e.replacement = mkReplacement env.delim category (getEntities st.entities category).length := by
  unfold addEntity at h
  by_cases hg1 : uri = ""
  · rw [if_pos hg1] at h; simp at h
  rw [if_neg hg1] at h
  by_cases hg2 : env.isUrl uri = true
  · rw [if_pos hg2] at h; simp at h
  rw [if_neg hg2] at h
  by_cases hg3 : getPathName env uri = some "/"
  · rw [if_pos hg3] at h; simp at h
  rw [if_neg hg3] at h
  by_cases hg4 : referenceDir ≠ ""
  · rw [if_pos hg4] at h
    by_cases hg5 : env.fsExists (joinPath referenceDir (((initialEntity env tag uri).pathname).getD "")) = false
    · rw [if_pos hg5] at h
      by_cases hg6 : (lookupStaticPath env (((initialEntity env tag uri).pathname).getD "")).isSome
      · rw [if_pos hg6] at h; simp at h
      · rw [if_neg hg6] at h; simp at h
    · rw [if_neg hg5] at h
      obtain ⟨hr, e, he1, he2, he3, he4, he5⟩ := registerEntity_spec _ _ _ _ _ _ _ _ _ h
      exact ⟨hr, e, he1, by rw [he2, initialEntity_tag], he3, he4, he5⟩
  · rw [if_neg hg4] at h
    cases hlook : lookupRootPath env (effectivePathname env uri) with
    | none =>
      simp only [hlook] at h
      by_cases hc1 : containsStr uri "#" = true
      · rw [if_pos hc1] at h; simp at h
      rw [if_neg hc1] at h
      by_cases hc2 : (lookupStaticPath env uri).isSome
      · rw [if_pos hc2] at h; simp at h
      · rw [if_neg hc2] at h; simp at h
    | some lr =>
      cases lr with
      | literalPath p => simp only [hlook] at h; simp at h
      | found rf sp =>
        simp only [hlook] at h
        obtain ⟨hr, e, he1, he2, he3, he4, he5⟩ := registerEntity_spec _ _ _ _ _ _ _ _ _ h
        exact ⟨hr, e, he1, by rw [he2, initialEntity_tag], he3, he4, he5⟩

end ToBuild

namespace ToBuild

theorem lookupRoots_eq_find (env : Env) (uri : String) (l : List String) :
    lookupRoots env uri l =
      (l.find? (fun r => env.fsExists (joinPath r uri))).map
        (fun r => LookupResult.found r (joinPath r uri)) := by
  induction l with
  | nil => rfl
  | cons a rest ih =>
    by_cases ha : env.fsExists (joinPath a uri) = true
    · simp [lookupRoots, List.find?_cons, ha]
    · simp only [Bool.not_eq_true] at ha
      simp [lookupRoots, List.find?_cons, ha, ih]

theorem effectivePathname_ne_empty (env : Env) (uri : String) (h : uri ≠ "") :
    effectivePathname env uri ≠ "" := by
  unfold effectivePathname pathnameField
  cases hp : getPathName env uri with
  | none => simpa using h
  | some p =>
    by_cases hpe : p = ""
    · simp [hpe]; exact h
    · simp [hpe]

theorem addEntity_skip (env : Env) (category uri : String) (st : RegState)
    (hskip : uri = "" ∨ env.isUrl uri = true ∨ getPathName env uri = some "/" ∨
      (lookupRootPath env (effectivePathname env uri) = none ∧ containsStr uri "#" = false ∧
       (lookupStaticPath env uri).isSome)) :
    ∀ tag : String, ∃ log, addEntity env category tag uri "" st = (none, st, log) := by
  intro tag
  by_cases hg1 : uri = ""
  · exact ⟨[], by simp [addEntity, hg1]⟩
  by_cases hg2 : env.isUrl uri = true
  · exact ⟨[], by simp [addEntity, hg1, hg2]⟩
  by_cases hg3 : getPathName env uri = some "/"
  · exact ⟨[], by simp [addEntity, hg1, hg2, hg3]⟩
  rcases hskip with h | h | h | ⟨h1, h2, h3⟩
  · exact absurd h hg1
  · exact absurd h hg2
  · exact absurd h hg3
  · exact ⟨[.staticSkip uri], by simp [addEntity, hg1, hg2, hg3, h1, h2, h3]⟩

end ToBuild

namespace ToBuild

/-! ### Claim theorems -/

/-- C4: every entity successfully registered by `addEntity` gets the
replacement delimiter + category + "(" + 0-based category ordinal + ")" +
delimiter, where the ordinal is the entity's position in its category's
insertion-ordered sequence (it is appended at the end, carrying the same
tagID and replacement); and two different ordinals of the same category always
yield different tagIDs and different replacement strings, for any delimiter. -/
theorem claim4_replacement_format :
    (∀ (env : Env) (category tag uri referenceDir : String) (st : RegState)
       (r : String) (st' : RegState) (log : List LogEvent),
       addEntity env category tag uri referenceDir st = (some r, st', log) →
       r = env.delim ++ (category ++ "(" ++ natRepr (getEntities st.entities category).length ++ ")") ++ env.delim ∧
       ∃ e : Entity,
         getEntities st'.entities category = getEntities st.entities category ++ [e] ∧
         e.tagID = category ++ "(" ++ natRepr (getEntities st.entities category).length ++ ")" ∧
         e.replacement = r) ∧
    (∀ (delim c : String) (i j : Nat), i ≠ j →
       mkTagID c i ≠ mkTagID c j ∧ mkReplacement delim c i ≠ mkReplacement delim c j) := by
  constructor
  · intro env category tag uri referenceDir st r st' log h
    obtain ⟨hr, e, he1, _, _, he4, he5⟩ := addEntity_some_structure _ _ _ _ _ _ _ _ _ h
    refine ⟨by rw [hr]; rfl, e, he1, by rw [he4]; rfl, by rw [he5, hr]⟩
  · intro delim c i j hij
    exact ⟨fun h => hij (mkTagID_inj _ _ _ h), fun h => hij (mkReplacement_inj _ _ _ _ h)⟩

/-- Witness for C4 at a concrete registration and a concrete ordinal pair. -/
theorem claim4_witness :
    ("@@" : String) ++ ("css" ++ "(" ++ natRepr 0 ++ ")") ++ "@@" = "@@css(0)@@" ∧
    mkTagID "css" 0 ≠ mkTagID "css" 1 ∧
    mkReplacement "@@" "css" 0 ≠ mkReplacement "@@" "css" 1 := by
  refine ⟨?_, ?_, ?_⟩
  · exact ((claim4_replacement_format.1 env0 "css" "<link href=\"a.css\" rel=\"stylesheet\">"
      "a.css" "" {} "@@css(0)@@" regAfterA [] (by decide)).1).symm
  · exact (claim4_replacement_format.2 "@@" "css" 0 1 (by decide)).1
  · exact (claim4_replacement_format.2 "@@" "css" 0 1 (by decide)).2

/-- C5: `addEntity` returns null and registers nothing — the matched tag stays
verbatim, `processMatch` returning the content unchanged — when the uri is
empty, is a fully-qualified URL, is a bare fragment (pathname "/"), or fails
root resolution while matching the Static Set without being a fragment; and
in the remaining unresolved case a missing-asset error is logged, null is
returned, and the tag again stays verbatim. -/
theorem claim5_skip_cases (env : Env) (category tag uri content rawTag : String) (st : RegState) :
    ((uri = "" ∨ env.isUrl uri = true ∨ getPathName env uri = some "/" ∨
      (lookupRootPath env (effectivePathname env uri) = none ∧ containsStr uri "#" = false ∧
       (lookupStaticPath env uri).isSome)) →
      (addEntity env category tag uri "" st).1 = none ∧
      (addEntity env category tag uri "" st).2.1 = st ∧
      processMatch env category content rawTag uri "" st = (content, st)) ∧
    ((uri ≠ "" ∧ env.isUrl uri = false ∧ getPathName env uri ≠ some "/" ∧
      lookupRootPath env (effectivePathname env uri) = none ∧ containsStr uri "#" = false ∧
      (lookupStaticPath env uri) = none) →
      addEntity env category tag uri "" st = (none, st, [LogEvent.missingAsset uri]) ∧
      processMatch env category content rawTag uri "" st = (content, st)) := by
  constructor
  · intro hskip
    obtain ⟨log1, h1⟩ := addEntity_skip env category uri st hskip tag
    obtain ⟨log2, h2⟩ := addEntity_skip env category uri st hskip (jsToLower rawTag)
    refine ⟨by rw [h1], by rw [h1], ?_⟩
    simp only [processMatch, h2]
  · intro ⟨h1, h2, h3, h4, h5, h6⟩
    have ha : ∀ t, addEntity env category t uri "" st = (none, st, [LogEvent.missingAsset uri]) := by
      intro t
      simp [addEntity, h1, h2, h3, h4, h5, h6]
    exact ⟨ha tag, by simp only [processMatch, ha (jsToLower rawTag)]⟩

/-- Witness for C5 covering all five skip cases at concrete inputs. -/
theorem claim5_witness :
    processMatch env0 "css" "<body>" "<tag>" "" "" {} = ("<body>", {}) ∧
    processMatch env0 "css" "<body>" "<tag>" "http://x/y.css" "" {} = ("<body>", {}) ∧
    processMatch env0 "css" "<body>" "<tag>" "#top" "" {} = ("<body>", {}) ∧
    processMatch env0 "css" "<body>" "<tag>" "pub.css" "" {} = ("<body>", {}) ∧
    addEntity env0 "css" "<tag>" "missing.css" "" {} = (none, {}, [LogEvent.missingAsset "missing.css"]) := by
  refine ⟨?_, ?_, ?_, ?_, ?_⟩
  · exact ((claim5_skip_cases env0 "css" "<tag>" "" "<body>" "<tag>" {}).1 (Or.inl rfl)).2.2
  · exact ((claim5_skip_cases env0 "css" "<tag>" "http://x/y.css" "<body>" "<tag>" {}).1
      (Or.inr (Or.inl (by decide)))).2.2
  · exact ((claim5_skip_cases env0 "css" "<tag>" "#top" "<body>" "<tag>" {}).1
      (Or.inr (Or.inr (Or.inl (by decide))))).2.2
  · exact ((claim5_skip_cases env0 "css" "<tag>" "pub.css" "<body>" "<tag>" {}).1
      (Or.inr (Or.inr (Or.inr ⟨by decide, by decide, by decide⟩)))).2.2
  · exact ((claim5_skip_cases env0 "css" "<tag>" "missing.css" "<body>" "<tag>" {}).2
      ⟨by decide, by decide, by decide, by decide, by decide, by decide⟩).1

/-- C6: `lookupRootPath` first returns the literal path when it exists on
disk, and otherwise scans the Root Set in order, returning the first join that
exists; in particular for Root Set `[A, B]` with the file present under both,
A's copy wins. -/
theorem claim6_resolution_order (env : Env) (uri : String) (hne : uri ≠ "") :
    (env.fsExists uri = true →
      lookupRootPath env uri = some (.literalPath (env.resolvePath uri))) ∧
    (env.fsExists uri = false →
      lookupRootPath env uri =
        (env.roots.find? (fun r => env.fsExists (joinPath r uri))).map
          (fun r => LookupResult.found r (joinPath r uri))) ∧
    (∀ A B : String, env.roots = [A, B] → env.fsExists uri = false →
      env.fsExists (joinPath A uri) = true → env.fsExists (joinPath B uri) = true →
      lookupRootPath env uri = some (.found A (joinPath A uri))) := by
  refine ⟨?_, ?_, ?_⟩
  · intro h
    unfold lookupRootPath
    rw [if_neg hne, if_pos h]
  · intro h
    unfold lookupRootPath
    rw [if_neg hne, if_neg (by simp [h])]
    exact lookupRoots_eq_find env uri env.roots
  · intro A B hr h hA hB
    unfold lookupRootPath
    rw [if_neg hne, if_neg (by simp [h]), hr]
    simp [lookupRoots, hA]

/-- Witness for C6: with `x.css` present under roots A and B, A's copy wins. -/
theorem claim6_witness :
    lookupRootPath envAB "x.css" = some (.found "A" "A/x.css") := by
  have h := (claim6_resolution_order envAB "x.css" (by decide)).2.2 "A" "B" rfl
    (by decide) (by decide) (by decide)
  have hj : joinPath "A" "x.css" = "A/x.css" := by decide
  rw [hj] at h
  exact h

/-- C9: when the matched tag contains an upper-case character, the entity is
registered with the lower-cased copy of the tag, the content keeps the
original tag verbatim because the lower-cased tag has no occurrence to
replace, and the later placeholder rewrite of `updateHtml` has nothing to
replace either. -/
theorem claim9_lowercase_extraction (env : Env) (category content rawTag uri referenceDir : String)
    (st : RegState) (r : String) (st' : RegState) (log : List LogEvent)
    (hmix : jsToLower rawTag ≠ rawTag)
    (horig : containsStr content rawTag = true)
    (hlow : containsStr content (jsToLower rawTag) = false)
    (hadd : addEntity env category (jsToLower rawTag) uri referenceDir st = (some r, st', log)) :
    processMatch env category content rawTag uri referenceDir st = (content, st') ∧
    containsStr (processMatch env category content rawTag uri referenceDir st).1 rawTag = true ∧
    (∃ e : Entity,
       getEntities st'.entities category = getEntities st.entities category ++ [e] ∧
       e.tag = jsToLower rawTag) ∧
    (∀ e' : Entity, containsStr content e'.replacement = false →
       (updateHtml content e').1 = content) := by
  have hpm : processMatch env category content rawTag uri referenceDir st = (content, st') := by
    simp only [processMatch, hadd]
    rw [jsReplaceFirst_of_not_contains _ _ _ hlow]
  obtain ⟨_, e, he1, he2, _⟩ := addEntity_some_structure _ _ _ _ _ _ _ _ _ hadd
  refine ⟨hpm, by rw [hpm]; exact horig, ⟨e, he1, he2⟩, ?_⟩
  intro e' hnc
  show jsReplaceFirst content e'.replacement _ = content
  exact jsReplaceFirst_of_not_contains _ _ _ hnc

/-- Witness for C9 at the upper-case `a.css` tag. -/
theorem claim9_witness :
    processMatch env0 "css" contentU rawTagU "a.css" "" {} = (contentU, regAfterA) :=
  (claim9_lowercase_extraction env0 "css" contentU rawTagU "a.css" "" {} "@@css(0)@@" regAfterA []
    (by decide) (by decide) (by decide) (by decide)).1

/-- C10 counterexample: with the uri's pathname existing on disk,
`lookupRootPath` does return a bare string, but the entity is NOT added to the
registry and gets no placeholder — `addEntity` returns null with the registry
untouched — contradicting the claim that it is still registered. -/
theorem claim10_counterexample :
    lookupRootPath envL "/a.css" = some (.literalPath "/a.css") ∧
    addEntity envL "css" "<link href=\"a.css\" rel=\"stylesheet\">" "a.css" "" {} = (none, {}, []) ∧
    (addEntity envL "css" "<link href=\"a.css\" rel=\"stylesheet\">" "a.css" "" {}).2.1.entities = [] := by
  decide

/-- C10 (amended): when the uri's pathname itself names an existing path,
`lookupRootPath` returns it as a bare string; `addEntity` destructures that
string into undefined fields and the `path.parse` on the undefined sourcePath
throws, so the entity is not registered: null is returned, the registry is
unchanged, and the tag stays verbatim. -/
theorem claim10_amended (env : Env) (category tag uri content rawTag : String) (st : RegState)
    (h1 : uri ≠ "") (h2 : env.isUrl uri = false) (h3 : getPathName env uri ≠ some "/")
    (h4 : env.fsExists (effectivePathname env uri) = true) :
    lookupRootPath env (effectivePathname env uri) =
      some (.literalPath (env.resolvePath (effectivePathname env uri))) ∧
    addEntity env category tag uri "" st = (none, st, []) ∧
    processMatch env category content rawTag uri "" st = (content, st) := by
  have hlp : lookupRootPath env (effectivePathname env uri) =
      some (.literalPath (env.resolvePath (effectivePathname env uri))) := by
    unfold lookupRootPath
    rw [if_neg (effectivePathname_ne_empty env uri h1), if_pos h4]
  have ha : ∀ t, addEntity env category t uri "" st = (none, st, []) := by
    intro t
    simp [addEntity, h1, h2, h3, hlp]
  exact ⟨hlp, ha tag, by simp only [processMatch, ha (jsToLower rawTag)]⟩

/-- Witness for the amended C10 at a concrete literal-path environment. -/
theorem claim10_witness :
    addEntity envL "script" "<script src=\"a.css\"></script>" "a.css" "" {} = (none, {}, []) :=
  (claim10_amended envL "script" "<script src=\"a.css\"></script>" "a.css" "x" "y" {}
    (by decide) (by decide) (by decide) (by decide)).2.1

end ToBuild

namespace ToBuild

/-- C2 (code bug evaluation): `applyChangesFromEntity` ignores its
`deployImmediately` parameter (the guard in the source is commented out), so
in a production CSS transform the entity IS recorded in the tag-id index, but
its placeholder is also substituted immediately and the per-entity output file
is written: at the failing input the resulting working text no longer contains
the placeholder that `buildProductionTargets` would need. -/
theorem claim2_production_deferral_bug :
    (∀ (env : Env) (html : String) (e : Entity) (ag d1 d2 : Bool),
       applyChangesFromEntity env html e ag d1 = applyChangesFromEntity env html e ag d2) ∧
    (getCodeTagID (minifyCssModel env0 (some "amin") none "<head>@@css(0)@@</head>" "out" false
        regEntityA true []).prodIdx "css(0)").isSome = true ∧
    containsStr (minifyCssModel env0 (some "amin") none "<head>@@css(0)@@</head>" "out" false
        regEntityA true []).html "@@css(0)@@" = false ∧
    (minifyCssModel env0 (some "amin") none "<head>@@css(0)@@</head>" "out" false
        regEntityA true []).writes = [("out/HASH.css", "amin")] ∧
    (minifyCssModel env0 (some "amin") none "<head>@@css(0)@@</head>" "out" false
        regEntityA true []).html = "<head><link href=\"./HASH.css\" rel=\"stylesheet\"></head>" := by
  refine ⟨fun env html e ag d1 d2 => rfl, ?_, ?_, ?_, ?_⟩ <;> decide

/-- C7: the directive scan removes a region wrapped in matching
`to-build remove <mode>` markers exactly when the shared mode token equals the
active build mode: a production region is removed when building for production
and left intact when building for staging, and mismatched opening/closing mode
tokens strip nothing under either mode. -/
theorem claim7_directive_stripping :
    reviewHTML "<a><!-- to-build remove production -->X<!-- /to-build remove production --><b>"
      "production" = "<a><b>" ∧
    reviewHTML "<a><!-- to-build remove production -->X<!-- /to-build remove production --><b>"
      "staging" =
      "<a><!-- to-build remove production -->X<!-- /to-build remove production --><b>" ∧
    reviewHTML "<a><!-- to-build remove production -->X<!-- /to-build remove staging --><b>"
      "production" =
      "<a><!-- to-build remove production -->X<!-- /to-build remove staging --><b>" ∧
    reviewHTML "<a><!-- to-build remove production -->X<!-- /to-build remove staging --><b>"
      "staging" =
      "<a><!-- to-build remove production -->X<!-- /to-build remove staging --><b>" := by
  decide

/-- C8 counterexample: for the stylesheet `s.css` (name "s", which also occurs
inside the extension ".css"), the staging minify rename lands the `.min`
suffix at the last occurrence of the name, producing `s.css.min` rather than
the claimed `<name>.min<ext>` = `s.min.css`. -/
theorem claim8_counterexample :
    (reviewTargetEntity env0 sCssEntity "out" false true true).targetPath = "out/s.css.min" ∧
    (reviewTargetEntity env0 sCssEntity "out" false true true).targetPath ≠ "out/s.min.css" := by
  decide

/-- C8 (amended): in a staging build with minify and sourcemaps on, for
entities whose name's last occurrence in the target path is the basename (the
spec's `a.css` / `b.js` scenario), the target is `<name>.min<ext>` with no
hash, and the source map plus the original unminified content are written
alongside the minified file in the target directory. -/
theorem claim8_staging_min_names :
    (minifyCssModel env0 (some "amin") (some "SMAP") "<head>@@css(0)@@</head>" "out" true
        regEntityA false []).writes =
      [("out/a.css.map", "SMAP"), ("out/a.css", "body-css"),
       ("out/a.min.css", "amin\n/*# sourceMappingURL=a.css.map */")] ∧
    (minifyCssModel env0 (some "amin") (some "SMAP") "<head>@@css(0)@@</head>" "out" true
        regEntityA false []).html = "<head><link href=\"./a.min.css\" rel=\"stylesheet\"></head>" ∧
    (reviewTargetEntity env0 regEntityA "out" false true true).targetPath = "out/a.min.css" ∧
    (reviewTargetEntity env0 regEntityA "out" false true true).sourcemapPath = "out/a.css.map" ∧
    (reviewTargetEntity env0 regEntityB "out" false true true).targetPath = "out/b.min.js" := by
  decide

end ToBuild

namespace ToBuild

/-- C1 counterexample: for a document whose placeholders alternate CSS,
SCRIPT, CSS and which ends right at the final placeholder, the coalescing
pass emits only TWO bundles — the final CSS run pending at end of input is
never flushed (no third bundle, no third file, no tag for it) — refuting the
claim that a flush happens at end of input yielding three bundles. -/
theorem claim1_counterexample :
    (buildProductionTargets env0 "out" idx3 "@@css(0)@@@@script(0)@@@@css(1)@@").flushed =
      [[cssE0], [scrE0]] ∧
    (buildProductionTargets env0 "out" idx3 "@@css(0)@@@@script(0)@@@@css(1)@@").flushed.length ≠ 3 ∧
    (buildProductionTargets env0 "out" idx3 "@@css(0)@@@@script(0)@@@@css(1)@@").writes.length = 2 ∧
    (buildProductionTargets env0 "out" idx3 "@@css(0)@@@@script(0)@@@@css(1)@@").newHtml =
      "<link rel=\"stylesheet\" href=\"./HASH.css\"/><script src=\"./HASH.js\"></script>" := by
  decide

/-- C1 (amended): walking the delimiter-split segments in document order, a
maximal same-category placeholder run is flushed as one bundle on a category
change or on a following non-placeholder segment, but NOT at end of input: the
alternating CSS/SCRIPT/CSS document yields three separate bundles (never a
merged one) exactly when a non-placeholder segment follows the last
placeholder, while a run still pending when the segments end is discarded. -/
theorem claim1_coalescing_runs (env : Env) (out : String) (e0 e1 e2 : Entity)
    (h0 : e0.category = "css") (h1 : e1.category = "script") (h2 : e2.category = "css") :
    (bptLoop env out [("css(0)", e0), ("script(0)", e1), ("css(1)", e2)]
        ["", "css(0)", "", "script(0)", "", "css(1)", "</body>"] {}).flushed =
      [[e0], [e1], [e2]] ∧
    (bptLoop env out [("css(0)", e0), ("script(0)", e1), ("css(1)", e2)]
        ["", "css(0)", "", "script(0)", "", "css(1)", ""] {}).flushed = [[e0], [e1]] ∧
    (bptLoop env out [("css(0)", e0), ("script(0)", e1), ("css(1)", e2)]
        ["", "css(0)", "", "script(0)", "", "css(1)", "</body>"] {}).writes.length = 3 := by
  have t1 : jsTrim "" = "" := by decide
  have t2 : jsTrim "css(0)" = "css(0)" := by decide
  have t3 : jsTrim "script(0)" = "script(0)" := by decide
  have t4 : jsTrim "css(1)" = "css(1)" := by decide
  have t5 : jsTrim "</body>" = "</body>" := by decide
  have d1 : ¬(("css(0)" : String) = "") := by decide
  have d2 : ¬(("script(0)" : String) = "") := by decide
  have d3 : ¬(("css(1)" : String) = "") := by decide
  have d4 : ¬(("</body>" : String) = "") := by decide
  have k1 : ¬(("css(0)" : String) = "script(0)") := by decide
  have k2 : ¬(("css(0)" : String) = "css(1)") := by decide
  have k3 : ¬(("script(0)" : String) = "css(1)") := by decide
  have k4 : ¬(("css(0)" : String) = "</body>") := by decide
  have k5 : ¬(("script(0)" : String) = "</body>") := by decide
  have k6 : ¬(("css(1)" : String) = "</body>") := by decide
  have c1 : ¬(("script" : String) = "css") := by decide
  have c2 : ¬(("css" : String) = "script") := by decide
  refine ⟨?_, ?_, ?_⟩ <;>
    simp [bptLoop, getCodeTagID, lookupAssoc, generateTag,
      t1, t2, t3, t4, t5, d1, d2, d3, d4, k1, k2, k3, k4, k5, k6, h0, h1, h2, c1, c2]

/-- Witness for the amended C1 at concrete entities. -/
theorem claim1_witness :
    (bptLoop env0 "out" [("css(0)", cssE0), ("script(0)", scrE0), ("css(1)", cssE1)]
        ["", "css(0)", "", "script(0)", "", "css(1)", "</body>"] {}).flushed =
      [[cssE0], [scrE0], [cssE1]] :=
  (claim1_coalescing_runs env0 "out" cssE0 scrE0 cssE1 rfl rfl rfl).1

/-- C3 counterexample: a non-placeholder segment carrying surrounding
whitespace is appended trimmed, not byte-for-byte: the segment " <body> "
comes out as "<body>". -/
theorem claim3_counterexample :
    (bptLoop env0 "out" idx3 ["", "css(0)", " <body> "] {}).newHtml =
      "<link rel=\"stylesheet\" href=\"./HASH.css\"/><body>" ∧
    (bptLoop env0 "out" idx3 ["", "css(0)", " <body> "] {}).newHtml ≠
      "<link rel=\"stylesheet\" href=\"./HASH.css\"/> <body> " := by
  decide

/-- C3 (amended): a delimiter-split segment that does not resolve to a
registered tag-id first flushes any pending same-category run (emitting its
bundle tag and writing its bundle file) and is then appended to the output
after JS trimming — not byte-for-byte; whitespace-only segments are dropped
entirely. -/
theorem claim3_passthrough_trimmed (env : Env) (out t : String) (e : Entity)
    (ht1 : jsTrim t ≠ "") (ht2 : jsTrim t ≠ "css(0)") :
    (bptLoop env out [("css(0)", e)] ["", "css(0)", t] {}).newHtml =
      optStr (generateTag env out [e]).tag ++ jsTrim t ∧
    (bptLoop env out [("css(0)", e)] ["", "css(0)", t] {}).flushed = [[e]] ∧
    (bptLoop env out [("css(0)", e)] ["", "css(0)", t] {}).writes =
      (generateTag env out [e]).writes := by
  have t1 : jsTrim "" = "" := by decide
  have t2 : jsTrim "css(0)" = "css(0)" := by decide
  have d1 : ¬(("css(0)" : String) = "") := by decide
  have h2' : ¬(("css(0)" : String) = jsTrim t) := fun h => ht2 h.symm
  refine ⟨?_, ?_, ?_⟩ <;>
    simp [bptLoop, getCodeTagID, lookupAssoc, t1, t2, d1, ht1, h2']

/-- Witness for the amended C3 at a concrete whitespace-wrapped segment. -/
theorem claim3_witness :
    (bptLoop env0 "out" [("css(0)", cssE0)] ["", "css(0)", " <p> "] {}).newHtml =
      optStr (generateTag env0 "out" [cssE0]).tag ++ jsTrim " <p> " ∧
    (bptLoop env0 "out" [("css(0)", cssE0)] ["", "css(0)", " <p> "] {}).flushed = [[cssE0]] ∧
    (bptLoop env0 "out" [("css(0)", cssE0)] ["", "css(0)", " <p> "] {}).writes =
      (generateTag env0 "out" [cssE0]).writes :=
  claim3_passthrough_trimmed env0 "out" " <p> " cssE0 (by decide) (by decide)

end ToBuild
